import Mathlib

/-!
Verification of the naukri-job-agent repository: a shallow embedding of its
JD screening, budget guardian, rate limiter, memory layer and orchestrator
cycle, with theorems checking the natural-language specification claims.

Conventions of the embedding:
* JS strings are Lean `String`; `s.includes(t)` is substring search on the
  character lists; `toLowerCase` is `strLower` (the keyword tables in
  the source are ASCII).
* JS numbers are `Int` (scores, counters) or `ℚ` (dollar costs; the budget
  code only adds, rounds to 4 decimals and compares, all exact on `ℚ`).
* File and module state is passed explicitly; network and browser calls are
  oracles supplied as arguments.
* Dates are year/month/day triples, with the process assumed to run in UTC
  so that `toISOString().slice(0, 10)` agrees with the local calendar day.
-/

namespace NB

/-- Substring search on character lists: does `pat` occur contiguously in
`hay`? -/
def seqContains : List Char → List Char → Bool
  | [], pat => pat.isEmpty
  | h :: t, pat => pat.isPrefixOf (h :: t) || seqContains t pat

/-- JS `haystack.includes(needle)` — substring containment, modelled on the
character lists of the two strings. -/
def jsIncludes (hay pat : String) : Bool :=
  seqContains hay.toList pat.toList

/-- ASCII lowercase of one character; the keyword tables and date strings the
source lowercases are ASCII, where JS `toLowerCase` agrees with this map. -/
def lowerChar (c : Char) : Char :=
  if 65 ≤ c.toNat ∧ c.toNat ≤ 90 then Char.ofNat (c.toNat + 32) else c

/-- JS `s.toLowerCase()` on ASCII text. -/
def strLower (s : String) : String :=
  ⟨s.toList.map lowerChar⟩

/-- The profile fields (from `memory/profile.json`) consumed by the keyword
screen, the blocklist and the orchestrator cycle. -/
structure Profile where
  skills : List String
  targetLocations : List String
  blockedCompanies : List String
  deriving Repr, DecidableEq

/-- The only field of the job object that `keywordFallbackScreen` reads
(`job && job.postedDate`); `none` models an absent field. -/
structure ScreenJob where
  postedDate : Option String
  deriving Repr, DecidableEq

/-- Return shape of `keywordFallbackScreen`. -/
structure ScreenOut where
  worthAnalyzing : Bool
  quickScore : Int
  reason : String
  deriving Repr, DecidableEq

/-- `roleKeywords` table of `jd-analyzer.js`. -/
def roleKeywords : List String :=
  ["operations", "director", "head of", "vp ", "vice president", "general manager",
   "chief", "leader", "strategy", "transformation", "program management",
   "business operations", "senior manager", "associate director", "global",
   "enterprise", "artificial intelligence", "ai", "machine learning", "llm",
   "generative ai"]

/-- `negatives` table of `jd-analyzer.js`. -/
def negatives : List String :=
  ["intern", "fresher", "entry level", "0-2 years", "1-3 years", "2-4 years", "junior"]

/-- The experience-range tokens tested by the `||` chain in
`keywordFallbackScreen`. -/
def expTokens : List String :=
  ["10+", "10-", "12+", "15+", "8+", "8-15", "10-20"]

/-- The `for (kw of kws) if (text.includes(kw)) score += delta` loop shape. -/
def scanBonus (text : String) (delta : Int) : List String → Int → Int
  | [], score => score
  | kw :: rest, score =>
      scanBonus text delta rest (if jsIncludes text kw then score + delta else score)

/-- The `skillHits` counting loop. -/
def countHits (text : String) : List String → Nat
  | [] => 0
  | kw :: rest => (if jsIncludes text kw then 1 else 0) + countHits text rest

/-- The location loop with its `break` after the first hit. -/
def locScan (text : String) : List String → Int → Int
  | [], score => score
  | l :: rest, score => if jsIncludes text l then score + 5 else locScan text rest score

/-- The freshness `||` chain of `keywordFallbackScreen` on a lowercased
`postedDate`. -/
def freshTokenHit (pd : String) : Bool :=
  jsIncludes pd "just now" || jsIncludes pd "few hours ago" || jsIncludes pd "today" ||
  jsIncludes pd "1 day ago" || jsIncludes pd "1 day"

/-- The score computation of `keywordFallbackScreen`: base 40, keyword
bonuses, skill cap, one location bonus, experience token bonus, negative
penalties, freshness boost, clamp to [0, 100]. -/
def kfsScore (jdText : String) (profile : Profile) (job : Option ScreenJob) : Int :=
  let text := strLower jdText
  let s1 := scanBonus text 5 roleKeywords 40
  let skillHits := countHits text (profile.skills.map strLower)
  let s2 := s1 + min ((skillHits : Int) * 3) 20
  let s3 := locScan text (profile.targetLocations.map strLower) s2
  let s4 := if expTokens.any (fun t => jsIncludes text t) then s3 + 5 else s3
  let s5 := scanBonus text (-15) negatives s4
  let s6 :=
    match job with
    | none => s5
    | some j =>
      match j.postedDate with
      | none => s5
      | some pd0 =>
        if pd0 = "" then s5
        else if freshTokenHit (strLower pd0) then s5 + 100 else s5
  max 0 (min 100 s6)

/-- `keywordFallbackScreen(jdText, profile, job)` of `jd-analyzer.js`. -/
def keywordFallbackScreen (jdText : String) (profile : Profile)
    (job : Option ScreenJob) : ScreenOut :=
  let score := kfsScore jdText profile job
  { worthAnalyzing := decide (50 ≤ score), quickScore := score,
    reason := "keyword-fallback (Gemini unavailable)" }

/-- Score formula stated the way the (amended) claim reads: a base of 40 plus
independent deltas — 5 per role keyword present, 3 per skill hit capped at
+20, 5 if any target location occurs, 5 if an experience token occurs, minus
15 per negative keyword, plus 100 if the lowercased `postedDate` contains one
of the five freshness substrings — clamped to [0, 100]. -/
def specScreenScore (jdText : String) (profile : Profile)
    (job : Option ScreenJob) : Int :=
  let text := strLower jdText
  let rolePart : Int := 5 * (roleKeywords.countP (fun kw => jsIncludes text kw) : Int)
  let skillPart : Int :=
    min (3 * ((profile.skills.map strLower).countP (fun kw => jsIncludes text kw) : Int)) 20
  let locPart : Int :=
    if (profile.targetLocations.map strLower).any (fun l => jsIncludes text l) then 5 else 0
  let expPart : Int := if expTokens.any (fun t => jsIncludes text t) then 5 else 0
  let negPart : Int := 15 * (negatives.countP (fun kw => jsIncludes text kw) : Int)
  let freshPart : Int :=
    match job with
    | none => 0
    | some j =>
      match j.postedDate with
      | none => 0
      | some pd0 => if pd0 ≠ "" ∧ freshTokenHit (strLower pd0) = true then 100 else 0
  max 0 (min 100 (40 + rolePart + skillPart + locPart + expPart - negPart + freshPart))

/-- The claim-side screening result built from `specScreenScore`. -/
def specScreen (jdText : String) (profile : Profile) (job : Option ScreenJob) :
    ScreenOut :=
  let score := specScreenScore jdText profile job
  { worthAnalyzing := decide (50 ≤ score), quickScore := score,
    reason := "keyword-fallback (Gemini unavailable)" }

/-- An empty profile: no skills, no target locations, no blocklist. -/
def emptyProfile : Profile := ⟨[], [], []⟩

/-! ### JSON file layer (`memory.js` helpers `readJSON` / `writeJSON`) -/

/-- JSON values, the level at which `JSON.parse` / `JSON.stringify` round-trip
(`-0`, `NaN` and non-serializable values do not arise in this program). -/
inductive Json where
  | null
  | bool (b : Bool)
  | num (q : ℚ)
  | str (s : String)
  | arr (xs : List Json)
  | obj (fields : List (String × Json))

/-- Contents of one file: either text that parses to a JSON value, or text
`JSON.parse` rejects. -/
inductive FileContent where
  | jsonText (v : Json)
  | corrupt

/-- The memory directory: file name to contents, `none` for a missing file. -/
def FileSys := String → Option FileContent

/-- `readJSON(name)`: parse the file, `none` (JS `null`) on a missing or
unparsable file — the `try/catch` means it never throws. -/
def readJSON (fs : FileSys) (name : String) : Option Json :=
  match fs name with
  | some (.jsonText v) => some v
  | _ => none

/-- `writeJSON(name, data)`: serialize and atomically replace the file. -/
def writeJSON (fs : FileSys) (name : String) (v : Json) : FileSys :=
  fun n => if n = name then some (.jsonText v) else fs n

/-- JS truthiness on JSON values. -/
def jsTruthy : Json → Bool
  | .null => false
  | .bool b => b
  | .num q => decide (q ≠ 0)
  | .str s => !s.isEmpty
  | .arr _ => true
  | .obj _ => true

/-- The accessor pattern `readJSON(name) || defaultValue`. -/
def jsOr (v : Option Json) (dflt : Json) : Json :=
  match v with
  | none => dflt
  | some x => if jsTruthy x then x else dflt

/-- `getAppliedJobs()` at the JSON level. -/
def getAppliedJobsJ (fs : FileSys) : Json :=
  jsOr (readJSON fs "applied-jobs.json") (.arr [])

/-- `getRecruiterMessages()` at the JSON level. -/
def getRecruiterMessagesJ (fs : FileSys) : Json :=
  jsOr (readJSON fs "recruiter-messages.json") (.arr [])

/-- `getExternalQueue()` at the JSON level. -/
def getExternalQueueJ (fs : FileSys) : Json :=
  jsOr (readJSON fs "external-queue.json") (.arr [])

/-- The default hourly-stats object (its `lastUpdated` is the current time,
passed in as `now`). -/
def hourlyStatsDefault (now : String) : Json :=
  .obj [("appliedThisHour", .num 0), ("appliedToday", .num 0),
        ("messagesThisHour", .num 0), ("messagesToday", .num 0),
        ("repliesToday", .num 0), ("externalQueueCount", .num 0),
        ("borderlineCount", .num 0), ("avgMatchScore", .num 0),
        ("coverLettersToday", .num 0), ("topMatchThisHour", .null),
        ("lastInsight", .str ""), ("lastUpdated", .str now)]

/-- `getHourlyStats()` at the JSON level. -/
def getHourlyStatsJ (fs : FileSys) (now : String) : Json :=
  jsOr (readJSON fs "hourly-stats.json") (hourlyStatsDefault now)

/-- The default budget-log object (`date` is the current day). -/
def budgetLogDefault (today : String) : Json :=
  .obj [("date", .str today),
        ("callsByModel", .obj [("FREE", .num 0), ("CHEAP", .num 0), ("BALANCED", .num 0)]),
        ("estimatedCostToday", .num 0), ("estimatedCostMonth", .num 0),
        ("totalCallsToday", .num 0), ("paused", .bool false),
        ("pausedUntil", .null), ("monthlyHistory", .arr [])]

/-- `getBudgetLog()` at the JSON level. -/
def getBudgetLogJ (fs : FileSys) (today : String) : Json :=
  jsOr (readJSON fs "budget-log.json") (budgetLogDefault today)

/-! ### Applied-jobs store with its in-memory jobId cache (`memory.js`) -/

/-- The record `logSuccessfulApply` passes to `logApplication`. -/
structure JobData where
  jobId : String
  company : String
  title : String
  url : String
  matchScore : Int
  salary : String
  recruiterName : String
  recruiterMessageSent : Bool
  status : String
  jdSummary : String
  topGap : String
  topStrength : String
  deriving Repr, DecidableEq

/-- One entry of `applied-jobs.json`: the logged data plus the `appliedAt`
timestamp added by `logApplication`. -/
structure AppliedEntry where
  data : JobData
  appliedAt : String
  deriving Repr, DecidableEq

/-- The memory module state touched by the applied-jobs operations: the two
JSON files and the `_appliedCache` Set (a `none` cache is uninitialized). -/
structure MemState where
  applied : List AppliedEntry
  archive : List AppliedEntry
  cache : Option (List String)
  deriving Repr, DecidableEq

/-- JS `Set.add`: insertion-ordered, deduplicating. -/
def setAdd (c : List String) (id : String) : List String :=
  if id ∈ c then c else c ++ [id]

/-- JS `new Set(list)`: fold `add` over the list. -/
def setOfList (l : List String) : List String :=
  l.foldl setAdd []

/-- `_ensureAppliedCache()`: the cached jobId set, built from the current
file contents when the cache is uninitialized. -/
def ensureCache (st : MemState) : List String :=
  match st.cache with
  | some c => c
  | none => setOfList (st.applied.map (fun e => e.data.jobId))

/-- `hasApplied(jobId)`: membership in the cached jobId set. -/
def hasAppliedB (st : MemState) (id : String) : Bool :=
  (ensureCache st).contains id

/-- `logApplication(jobData)`: append the stamped record, archive the prefix
beyond the 2000-entry cap, write the file, and add the jobId to the cache. -/
def logApplication (now : String) (st : MemState) (d : JobData) : MemState :=
  let jobs := st.applied ++ [⟨d, now⟩]
  let n := jobs.length
  let st1 :=
    if 2000 < n then
      { st with applied := jobs.drop (n - 2000), archive := st.archive ++ jobs.take (n - 2000) }
    else
      { st with applied := jobs }
  { st1 with cache := some (setAdd (ensureCache st1) d.jobId) }

/-- A sequence of `logApplication` calls, each with its own timestamp. -/
def logMany (st : MemState) : List (JobData × String) → MemState
  | [] => st
  | (d, t) :: rest => logMany (logApplication t st d) rest

/-! ### External queue and blocklist (`memory.js`) -/

/-- The record the orchestrator passes to `addToExternalQueue`. -/
structure QueueData where
  jobId : String
  company : String
  title : String
  url : String
  matchScore : Int
  salary : String
  jdSummary : String
  isBorderline : Bool
  deriving Repr, DecidableEq

/-- One entry of `external-queue.json`: the data plus the `addedAt` stamp. -/
structure QueueEntry where
  data : QueueData
  addedAt : String
  deriving Repr, DecidableEq

/-- `addToExternalQueue(data)`: append unless some queued entry already has
this `jobId`. -/
def addToExternalQueue (now : String) (queue : List QueueEntry) (d : QueueData) :
    List QueueEntry :=
  if queue.any (fun q => q.data.jobId == d.jobId) then queue
  else queue ++ [⟨d, now⟩]

/-- `isCompanyBlocked(company)`: case-insensitive membership in
`profile.blockedCompanies`. -/
def isCompanyBlocked (profile : Profile) (company : String) : Bool :=
  profile.blockedCompanies.any (fun b => strLower b == strLower company)

/-- `addToBlocklist(company)`: append unless already present
case-insensitively. -/
def addToBlocklist (profile : Profile) (company : String) : Profile :=
  if profile.blockedCompanies.any (fun b => strLower b == strLower company) then profile
  else { profile with blockedCompanies := profile.blockedCompanies ++ [company] }

/-! ### BudgetGuardian (`gemini.js`) -/

/-- A calendar day, the `toISOString().slice(0, 10)` value (UTC assumed). -/
structure Ymd where
  year : Nat
  month : Nat
  day : Nat
  deriving Repr, DecidableEq

/-- The three cost tiers of `MODEL_REGISTRY`. -/
inductive ModelKey where
  | FREE
  | CHEAP
  | BALANCED
  deriving Repr, DecidableEq

/-- The budget log state (`budget-log.json` as `getBudgetLog` shapes it,
plus the `_warnAlerted` / `_pauseAlerted` flags `checkBudget` writes). -/
structure BudgetLog where
  date : Ymd
  callsFREE : Nat
  callsCHEAP : Nat
  callsBALANCED : Nat
  estimatedCostToday : ℚ
  estimatedCostMonth : ℚ
  totalCallsToday : Nat
  paused : Bool
  pausedUntil : Option Ymd
  monthlyHistory : List ((Nat × Nat) × ℚ)
  warnAlerted : Bool
  pauseAlerted : Bool
  deriving Repr, DecidableEq

/-- `log.callsByModel[modelKey]`. -/
def BudgetLog.calls (log : BudgetLog) : ModelKey → Nat
  | .FREE => log.callsFREE
  | .CHEAP => log.callsCHEAP
  | .BALANCED => log.callsBALANCED

/-- `callsByModel[modelKey] += 1; totalCallsToday += 1`. -/
def bumpCalls (log : BudgetLog) : ModelKey → BudgetLog
  | .FREE => { log with callsFREE := log.callsFREE + 1,
                        totalCallsToday := log.totalCallsToday + 1 }
  | .CHEAP => { log with callsCHEAP := log.callsCHEAP + 1,
                         totalCallsToday := log.totalCallsToday + 1 }
  | .BALANCED => { log with callsBALANCED := log.callsBALANCED + 1,
                            totalCallsToday := log.totalCallsToday + 1 }

/-- The env-derived budget thresholds of `config.budget`. -/
structure BudgetCfg where
  monthlyHardStopUSD : ℚ
  monthlyPauseUSD : ℚ
  monthlyWarningUSD : ℚ
  deriving Repr, DecidableEq

/-- `MODEL_REGISTRY.dailyCallLimits`. -/
structure DailyLimits where
  FREE : Nat
  CHEAP : Nat
  BALANCED : Nat
  TOTAL : Nat
  deriving Repr, DecidableEq

/-- The limits table of `model-router.js`: every entry is 1400. -/
def registryLimits : DailyLimits := ⟨1400, 1400, 1400, 1400⟩

/-- `limits[modelKey]` (every key is present, so the `|| limits.TOTAL`
fallback never fires). -/
def DailyLimits.forKey (L : DailyLimits) : ModelKey → Nat
  | .FREE => L.FREE
  | .CHEAP => L.CHEAP
  | .BALANCED => L.BALANCED

/-- Per-model costs of `MODEL_REGISTRY.costs`: all zero, all free tier. -/
structure ModelCosts where
  input_batch : ℚ
  output_batch : ℚ
  has_free_tier : Bool
  deriving Repr, DecidableEq

/-- The cost table: every tier routes to the free model. -/
def registryCosts : ModelKey → ModelCosts := fun _ => ⟨0, 0, true⟩

/-- `_ensureTodayLog()`: on a date change reset the daily fields (date,
per-model calls, cost today, total calls today) and save. -/
def ensureTodayLog (today : Ymd) (log : BudgetLog) : BudgetLog :=
  if log.date ≠ today then
    { log with date := today, callsFREE := 0, callsCHEAP := 0, callsBALANCED := 0,
               estimatedCostToday := 0, totalCallsToday := 0 }
  else log

/-- `_ensureMonthLog`: push a zero-cost history entry for this month if
absent. -/
def ensureMonthLog (month : Nat × Nat) (log : BudgetLog) : BudgetLog :=
  match log.monthlyHistory.lookup month with
  | some _ => log
  | none => { log with monthlyHistory := log.monthlyHistory ++ [(month, 0)] }

/-- The `nextMonth.setMonth(getMonth() + 1, 1)` computation: the first day of
the following month (December rolls into January of the next year). -/
def firstOfNextMonth (today : Ymd) : Ymd :=
  if 12 ≤ today.month then ⟨today.year + 1, 1, 1⟩ else ⟨today.year, today.month + 1, 1⟩

/-- What `checkBudget` returns and mutates: the allow decision, the saved
log, and the router force-cheap flag. -/
structure CheckOut where
  allowed : Bool
  reason : String
  log : BudgetLog
  forceCheap : Bool
  deriving Repr, DecidableEq

/-- The two alert blocks of `checkBudget` (80 percent and warning): they set
only the `_pauseAlerted` / `_warnAlerted` flags on the saved log. -/
def applyAlerts (cfg : BudgetCfg) (log : BudgetLog) : BudgetLog :=
  let log1 :=
    if cfg.monthlyPauseUSD ≤ log.estimatedCostMonth ∧ log.pauseAlerted = false then
      { log with pauseAlerted := true }
    else log
  if cfg.monthlyWarningUSD ≤ log1.estimatedCostMonth ∧ log1.warnAlerted = false then
    { log1 with warnAlerted := true }
  else log1

/-- `BudgetGuardian.checkBudget(modelKey)`: day rollover, paused gate,
monthly hard stop (pausing until next month), 80 percent and warning alerts,
then the per-model and total daily call limits. -/
def checkBudget (cfg : BudgetCfg) (today : Ymd) (fc : Bool) (log0 : BudgetLog)
    (mk : ModelKey) : CheckOut :=
  let log := ensureTodayLog today log0
  if log.paused then ⟨false, "Agent paused", log, fc⟩
  else if cfg.monthlyHardStopUSD ≤ log.estimatedCostMonth then
    ⟨false, "Monthly budget hard stop reached",
     { log with paused := true, pausedUntil := some (firstOfNextMonth today) }, fc⟩
  else
    let fc1 := if cfg.monthlyPauseUSD ≤ log.estimatedCostMonth then true else fc
    let log2 := applyAlerts cfg log
    if registryLimits.forKey mk ≤ log2.calls mk then
      ⟨false, "Daily model call limit reached", log2, fc1⟩
    else if registryLimits.TOTAL ≤ log2.totalCallsToday then
      ⟨false, "Daily total call limit reached", log2, fc1⟩
    else ⟨true, "ok", log2, fc1⟩

/-- `Math.round(x * 10000) / 10000` (half rounds up, as JS does). -/
def round4 (q : ℚ) : ℚ := (round (q * 10000) : ℤ) / 10000

/-- `BudgetGuardian.recordCall(modelKey, inputTokens, outputTokens)`:
increment the counters and, for a paid tier, accumulate rounded cost and
update this month's history entry. -/
def recordCall (today : Ymd) (log0 : BudgetLog) (mk : ModelKey)
    (inTok outTok : Nat) : BudgetLog :=
  let log := ensureTodayLog today log0
  let log := ensureMonthLog (today.year, today.month) log
  let log := bumpCalls log mk
  let costs := registryCosts mk
  if costs.has_free_tier then log
  else
    let callCost := (inTok : ℚ) / 1000000 * costs.input_batch +
                    (outTok : ℚ) / 1000000 * costs.output_batch
    let costMonth := round4 (log.estimatedCostMonth + callCost)
    { log with
      estimatedCostToday := round4 (log.estimatedCostToday + callCost),
      estimatedCostMonth := costMonth,
      monthlyHistory := log.monthlyHistory.map
        (fun h => if h.1 = (today.year, today.month) then (h.1, costMonth) else h) }

/-! ### Free-tier rate limiter and `callGemini` (`gemini.js`) -/

/-- `FreeRateLimiter` state. -/
structure RlState where
  lastCallTime : Nat
  callsToday : Nat
  currentDay : Ymd
  deriving Repr, DecidableEq

/-- `_resetIfNewDay()`. -/
def resetIfNewDay (today : Ymd) (rl : RlState) : RlState :=
  if today ≠ rl.currentDay then { rl with currentDay := today, callsToday := 0 } else rl

/-- `canCall()`: under the 1400-calls-per-day cap. -/
def canCall (today : Ymd) (rl0 : RlState) : Bool × RlState :=
  let rl := resetIfNewDay today rl0
  (decide (rl.callsToday < 1400), rl)

/-- `waitForSlot()`: refuse over the daily cap; otherwise sleep out the
4.5 s minimum interval (the clock after the sleep is idealized as exactly
the end of the interval), stamp the call time and count the call. -/
def waitForSlot (today : Ymd) (now : Nat) (rl0 : RlState) : Bool × RlState :=
  let (ok, rl) := canCall today rl0
  if ok = false then (false, rl)
  else
    let t := if now - rl.lastCallTime < 4500 then rl.lastCallTime + 4500 else now
    (true, { rl with lastCallTime := t, callsToday := rl.callsToday + 1 })

/-- `getModel` result (`model-router.js`). -/
structure Routing where
  modelId : String
  mode : String
  costTier : ModelKey
  deriving Repr, DecidableEq

/-- `MODEL_REGISTRY.models`: every tier maps to the free flash model. -/
def modelsOf : ModelKey → String := fun _ => "gemini-2.0-flash"

/-- `MODEL_REGISTRY.taskRouting`: every task routes to the FREE tier in
batch mode. -/
def taskRouting : List (String × ModelKey) :=
  [("company_research", .FREE), ("jd_screening", .FREE), ("keyword_extraction", .FREE),
   ("hourly_insight", .FREE), ("report_generation", .FREE), ("follow_up_draft", .FREE),
   ("dedup_check", .FREE), ("jd_analysis_full", .FREE), ("recruiter_message", .FREE),
   ("resume_tailor", .FREE), ("interview_prep", .FREE), ("offer_analysis", .FREE)]

/-- `getFallback(modelKey)`: FREE to BALANCED to CHEAP, CHEAP to itself. -/
def getFallback : ModelKey → ModelKey
  | .FREE => .BALANCED
  | .BALANCED => .CHEAP
  | .CHEAP => .CHEAP

/-- `getModel(taskType)`: unknown tasks default to CHEAP batch; a known
task's tier is demoted to CHEAP when `_forceCheap` is set (unless FREE). -/
def getModel (fc : Bool) (task : String) : Routing :=
  match taskRouting.lookup task with
  | none => ⟨modelsOf .CHEAP, "batch", .CHEAP⟩
  | some mk =>
    let tier := if fc ∧ mk ≠ .FREE then .CHEAP else mk
    ⟨modelsOf tier, "batch", tier⟩

/-- Result of one model response. -/
inductive GemOut where
  | text (s : String)
  | parsed (v : Json)

/-- Outcome of one `generateContent` request: a response with token usage, a
retryable failure (429 or transient), or a fatal error. -/
inductive AttemptOutcome where
  | ok (text : String) (inTok outTok : Nat)
  | retryable
  | fatal

/-- The network oracle for `callGemini`: outcomes of the numbered main-model
requests, the outcome of the single fallback request, and the JSON decoding
(fence stripping plus `JSON.parse`) applied when `options.json` is set. -/
structure GeminiEnv where
  attempts : Nat → AttemptOutcome
  fallbackOutcome : AttemptOutcome
  parse : String → Option Json

/-- Decode a response per `options.json` (a parse failure yields JS null). -/
def decodeResult (env : GeminiEnv) (wantJson : Bool) (t : String) : Option GemOut :=
  if wantJson then (env.parse t).map GemOut.parsed else some (.text t)

/-- The fallback-model block of `callGemini`: returns the result, the
budget log, requests issued and calls recorded. -/
def geminiFallbackStep (env : GeminiEnv) (today : Ymd) (tier : ModelKey)
    (wantJson : Bool) (log : BudgetLog) : Option GemOut × BudgetLog × Nat × Nat :=
  let fb := getFallback tier
  if fb ≠ tier then
    match env.fallbackOutcome with
    | .ok t i o => (decodeResult env wantJson t, recordCall today log fb i o, 1, 1)
    | _ => (none, log, 1, 0)
  else (none, log, 0, 0)

/-- The retry loop of `callGemini` (`retries = 2`): each iteration issues a
request; retryable errors continue up to attempt 2, where a failure goes to
the fallback model; a fatal error before attempt 2 returns null. The fuel
argument only bounds the recursion (3 covers attempts 0, 1, 2). -/
def geminiLoop (env : GeminiEnv) (today : Ymd) (tier : ModelKey) (wantJson : Bool) :
    Nat → Nat → BudgetLog → Option GemOut × BudgetLog × Nat × Nat
  | _, 0, log => (none, log, 0, 0)
  | attempt, fuel + 1, log =>
    match env.attempts attempt with
    | .ok t i o => (decodeResult env wantJson t, recordCall today log tier i o, 1, 1)
    | .retryable =>
      if attempt < 2 then
        let r := geminiLoop env today tier wantJson (attempt + 1) fuel log
        (r.1, r.2.1, r.2.2.1 + 1, r.2.2.2)
      else
        let r := geminiFallbackStep env today tier wantJson log
        (r.1, r.2.1, r.2.2.1 + 1, r.2.2.2)
    | .fatal =>
      if attempt = 2 then
        let r := geminiFallbackStep env today tier wantJson log
        (r.1, r.2.1, r.2.2.1 + 1, r.2.2.2)
      else (none, log, 1, 0)

/-- Everything `callGemini` returns or mutates: the call result, rate
limiter state, budget log, force-cheap flag, the number of model requests
issued, the number of `recordCall` invocations, and which cost tier (if
any) was passed to `checkBudget`. -/
structure CallOut where
  result : Option GemOut
  rl : RlState
  log : BudgetLog
  forceCheap : Bool
  requests : Nat
  recorded : Nat
  checkedTier : Option ModelKey

/-- `callGemini(prompt, taskType, options)`: rate-limiter slot first, then
the budget check for the routed tier, then the request loop. The prompt
text does not influence control flow and is omitted. -/
def callGemini (env : GeminiEnv) (cfg : BudgetCfg) (today : Ymd) (now : Nat)
    (task : String) (wantJson : Bool) (rl0 : RlState) (log0 : BudgetLog)
    (fc : Bool) : CallOut :=
  let slot := waitForSlot today now rl0
  if slot.1 = false then ⟨none, slot.2, log0, fc, 0, 0, none⟩
  else
    let routing := getModel fc task
    let chk := checkBudget cfg today fc log0 routing.costTier
    if chk.allowed = false then
      ⟨none, slot.2, chk.log, chk.forceCheap, 0, 0, some routing.costTier⟩
    else
      let r := geminiLoop env today routing.costTier wantJson 0 3 chk.log
      ⟨r.1, slot.2, r.2.1, chk.forceCheap, r.2.2.1, r.2.2.2, some routing.costTier⟩

/-! ### Orchestrator flags and cycle re-entry (`orchestrator.js`) -/

/-- The module-level flags of `orchestrator.js`. -/
structure OrchFlags where
  isPaused : Bool
  isRunning : Bool
  emergencyStop : Bool
  deriving Repr, DecidableEq

/-- The flags plus the number of cycle bodies currently executing (the
quantity the no-overlap claim is about). -/
structure OrchSys where
  flags : OrchFlags
  activeCycles : Nat
  deriving Repr, DecidableEq

/-- Events of the single-threaded event loop that touch the flags: a cron
tick entering `runNaukriCycle` (the guard and `isRunning = true` run
atomically, with no `await` between them), a cycle body reaching an exit
path (every one, including the login-failure return and the error path,
runs the `finally` that clears `isRunning`), `setPaused`, and
`setEmergencyStop`. -/
inductive OrchEvent where
  | enterCycle
  | exitCycle
  | setPausedEv (b : Bool)
  | emergencyEv
  deriving Repr, DecidableEq

/-- One event step. A guarded-out `enterCycle` leaves the state unchanged
(the early `return`). -/
def orchStep (s : OrchSys) : OrchEvent → OrchSys
  | .enterCycle =>
    if s.flags.isPaused || s.flags.isRunning || s.flags.emergencyStop then s
    else ⟨⟨s.flags.isPaused, true, s.flags.emergencyStop⟩, s.activeCycles + 1⟩
  | .exitCycle =>
    if s.activeCycles = 0 then s
    else ⟨⟨s.flags.isPaused, false, s.flags.emergencyStop⟩, s.activeCycles - 1⟩
  | .setPausedEv b => ⟨⟨b, s.flags.isRunning, s.flags.emergencyStop⟩, s.activeCycles⟩
  | .emergencyEv => ⟨⟨true, false, true⟩, s.activeCycles⟩

/-- Process start: all flags false, no cycle running. -/
def orchInit : OrchSys := ⟨⟨false, false, false⟩, 0⟩

/-- The state after a sequence of events. -/
def orchRun (evs : List OrchEvent) : OrchSys := evs.foldl orchStep orchInit

/-- The inductive invariant: at most one body, and a running body holds the
`isRunning` flag unless an emergency stop cleared it (which also blocks all
future entries). -/
def orchInv (s : OrchSys) : Prop :=
  s.activeCycles ≤ 1 ∧
  (s.activeCycles = 1 → s.flags.isRunning = true ∨ s.flags.emergencyStop = true)

/-! ### The apply loop of `runNaukriCycle` (`orchestrator.js`) -/

/-- A job card as `searchJobs` extracts it (`postedDate` is never set by the
scraper; it is kept as an optional field because `keywordFallbackScreen`
reads it). -/
structure CJob where
  jobId : String
  title : String
  company : String
  salary : String
  jdSnippet : String
  url : String
  isEasyApply : Bool
  postedDate : Option String
  deriving Repr, DecidableEq

/-- Outcome of one `applyEasyApply` call: success, failure with reason
`not_logged_in` (triggering one re-login and retry), or any other failure
(including thrown errors, which the `catch` swallows). -/
inductive ApplyRes where
  | success
  | notLoggedIn
  | fail
  deriving Repr, DecidableEq

/-- Oracles for the browser during one cycle: outcome of the apply call per
jobId, whether the re-login succeeds, outcome of the retry per jobId, and
the wall-clock timestamp. Telegram, Gemini, JD extraction and recruiter
messaging are omitted: they do not affect which jobs get applied to. -/
structure CycleEnv where
  applyRes : String → ApplyRes
  reloginOk : Bool
  retryOk : String → Bool
  now : String

/-- Trace entry recorded at each `applyEasyApply` invocation, with the
checks the claim talks about evaluated on the state at that moment. -/
structure ApplyEvent where
  jobId : String
  company : String
  easyApply : Bool
  score : Int
  preHasApplied : Bool
  preInCycle : Bool
  preBlocked : Bool
  succeeded : Bool
  deriving Repr, DecidableEq

/-- The orchestrator state threaded through one cycle: memory, the external
queue file, the `appliedThisCycle` Set, the submission trace and the two
counters. -/
structure CycleState where
  mem : MemState
  queue : List QueueEntry
  cycleSet : List String
  events : List ApplyEvent
  cycleApplied : Nat
  cycleSkipped : Nat
  deriving Repr, DecidableEq

/-- The record `logSuccessfulApply` builds. -/
def jobDataOf (j : CJob) (score : Int) : JobData :=
  ⟨j.jobId, j.company, j.title, j.url, score, j.salary, "", false, "applied", "", "", ""⟩

/-- The record the external-queue branch builds. -/
def queueDataOf (j : CJob) (score : Int) : QueueData :=
  ⟨j.jobId, j.company, j.title, j.url, score, j.salary,
   "Keyword match score: " ++ toString score, false⟩

/-- The text handed to the keyword screen:
title, company, salary, snippet joined by single spaces. -/
def screenTextOf (j : CJob) : String :=
  j.title ++ " " ++ j.company ++ " " ++ j.salary ++ " " ++ j.jdSnippet

/-- Snapshot the claim-relevant checks at an `applyEasyApply` invocation. -/
def applyEventOf (st : CycleState) (profile : Profile) (j : CJob) (score : Int)
    (succ : Bool) : ApplyEvent :=
  ⟨j.jobId, j.company, j.isEasyApply, score, hasAppliedB st.mem j.jobId,
   st.cycleSet.contains j.jobId, isCompanyBlocked profile j.company, succ⟩

/-- The bookkeeping after a successful apply: counter, `appliedThisCycle`,
`logSuccessfulApply` (which calls `logApplication`). -/
def markApplied (env : CycleEnv) (st : CycleState) (j : CJob) (score : Int) :
    CycleState :=
  { st with mem := logApplication env.now st.mem (jobDataOf j score),
            cycleSet := setAdd st.cycleSet j.jobId,
            cycleApplied := st.cycleApplied + 1 }

/-- The body of the inner `for (const job of newJobs)` loop: score gate at
45, easy-apply branch with its re-login retry, external-queue branch. -/
def processJob (profile : Profile) (env : CycleEnv) (st : CycleState) (j : CJob) :
    CycleState :=
  let screen := keywordFallbackScreen (screenTextOf j) profile (some ⟨j.postedDate⟩)
  if screen.quickScore < 45 then { st with cycleSkipped := st.cycleSkipped + 1 }
  else if j.isEasyApply then
    match env.applyRes j.jobId with
    | .success =>
      let st1 := { st with events := st.events ++ [applyEventOf st profile j screen.quickScore true] }
      markApplied env st1 j screen.quickScore
    | .notLoggedIn =>
      let st1 := { st with events := st.events ++ [applyEventOf st profile j screen.quickScore false] }
      if env.reloginOk then
        let st2 := { st1 with events := st1.events ++ [applyEventOf st1 profile j screen.quickScore (env.retryOk j.jobId)] }
        if env.retryOk j.jobId then markApplied env st2 j screen.quickScore else st2
      else st1
    | .fail =>
      { st with events := st.events ++ [applyEventOf st profile j screen.quickScore false] }
  else
    { st with queue := addToExternalQueue env.now st.queue (queueDataOf j screen.quickScore) }

/-- One role batch: the `newJobs` filter (already applied, applied earlier
in this cycle, blocklisted) runs over the whole result list before the
per-job loop. -/
def processRole (profile : Profile) (env : CycleEnv) (st : CycleState)
    (jobs : List CJob) : CycleState :=
  let newJobs := jobs.filter (fun j =>
    !hasAppliedB st.mem j.jobId && !st.cycleSet.contains j.jobId &&
    !isCompanyBlocked profile j.company)
  newJobs.foldl (processJob profile env) st

/-- The apply loop of `runNaukriCycle` over the searched role batches
(role rotation, login and the flag guard are handled elsewhere; the flags
are not flipped mid-cycle in this single-cycle model). -/
def runCycleModel (profile : Profile) (env : CycleEnv) (mem0 : MemState)
    (queue0 : List QueueEntry) (roleBatches : List (List CJob)) : CycleState :=
  roleBatches.foldl (processRole profile env) ⟨mem0, queue0, [], [], 0, 0⟩

/-- The duplicated easy-apply job card of the C6 failing input. -/
def cjobDup : CJob := ⟨"1", "operations", "", "", "", "", true, none⟩

/-- A cycle environment in which every apply call succeeds. -/
def envAllSuccess : CycleEnv :=
  ⟨fun _ => .success, true, fun _ => false, "2025-01-01T00:00:00.000Z"⟩

/-- The cycle output on the failing input: one role whose search results
contain the same easy-apply job twice. -/
def dupBugOut : CycleState :=
  runCycleModel emptyProfile envAllSuccess ⟨[], [], none⟩ [] [[cjobDup, cjobDup]]

/-! ### Concrete inputs used by witnesses and counterexamples -/

/-- A queued record. -/
def qd1 : QueueData := ⟨"j1", "c1", "t1", "u1", 50, "", "s1", false⟩

/-- A different record carrying the same `jobId` as `qd1`. -/
def qd2 : QueueData := ⟨"j1", "c2", "t2", "u2", 60, "", "s2", false⟩

/-- A sample day. -/
def day0 : Ymd := ⟨2025, 1, 15⟩

/-- The default thresholds of `config.budget` (50 / 45 / 35 USD). -/
def cfg0 : BudgetCfg := ⟨50, 45, 35⟩

/-- A budget log dated `day0` whose monthly cost has hit the hard stop. -/
def logAtHardStop : BudgetLog :=
  ⟨day0, 3, 0, 0, 1, 50, 3, false, none, [((2025, 1), 50)], true, true⟩

/-- A paused budget log dated `day0`. -/
def logPausedW : BudgetLog :=
  ⟨day0, 0, 0, 0, 0, 1, 0, true, some ⟨2025, 2, 1⟩, [], false, false⟩

/-- A fresh budget log dated `day0`. -/
def logFresh : BudgetLog :=
  ⟨day0, 0, 0, 0, 0, 0, 0, false, none, [], false, false⟩

/-- A rate limiter state that has exhausted its 1400 daily calls. -/
def rlExhausted : RlState := ⟨0, 1400, day0⟩

/-- A fresh rate limiter state. -/
def rlFresh : RlState := ⟨0, 0, day0⟩

/-- A network oracle where every request fails fatally. -/
def envAllFatal : GeminiEnv := ⟨fun _ => .fatal, .fatal, fun _ => none⟩

/-- A sample applied-job record. -/
def jd0 : JobData := ⟨"j0", "c0", "t0", "u0", 45, "", "", false, "applied", "", "", ""⟩

/-- A second applied-job record. -/
def jd1 : JobData := ⟨"j9", "c9", "t9", "u9", 60, "", "", false, "applied", "", "", ""⟩

/-- A memory state whose applied-jobs file already holds 2000 records. -/
def stFull : MemState := ⟨List.replicate 2000 ⟨jd0, "t0"⟩, [], none⟩

/-- A memory state with an initialized (empty) cache. -/
def stCached : MemState := ⟨[], [], some []⟩

/-- An empty memory directory. -/
def fsEmpty : FileSys := fun _ => none

/-- A budget log dated the day before `day0`, with nonzero daily and
monthly figures. -/
def logStale : BudgetLog :=
  ⟨⟨2025, 1, 14⟩, 5, 1, 2, 2, 7, 8, false, none, [((2025, 1), 7)], true, false⟩

/-! ## Helper lemmas -/

theorem scanBonus_eq (text : String) (delta : Int) (l : List String) (s : Int) :
    scanBonus text delta l s =
      s + delta * (l.countP (fun kw => jsIncludes text kw) : Int) := by
  induction l generalizing s with
  | nil => simp [scanBonus]
  | cons k rest ih =>
    by_cases h : jsIncludes text k = true
    · simp only [scanBonus, h, if_true, ih, List.countP_cons, h]
      push_cast
      ring
    · simp only [scanBonus, h, if_false, ih, List.countP_cons]
      simp [h]

theorem countHits_eq (text : String) (l : List String) :
    countHits text l = l.countP (fun kw => jsIncludes text kw) := by
  induction l with
  | nil => rfl
  | cons k rest ih =>
    by_cases h : jsIncludes text k = true <;>
      simp [countHits, List.countP_cons, h, ih] <;> omega

theorem locScan_eq (text : String) (l : List String) (s : Int) :
    locScan text l s = if l.any (fun x => jsIncludes text x) then s + 5 else s := by
  induction l with
  | nil => simp [locScan]
  | cons k rest ih =>
    by_cases h : jsIncludes text k = true <;> simp [locScan, h, ih]

theorem kfsScore_eq_spec (jd : String) (p : Profile) (j : Option ScreenJob) :
    kfsScore jd p j = specScreenScore jd p j := by
  unfold kfsScore specScreenScore
  rcases j with _ | ⟨pd⟩
  · dsimp only
    simp only [scanBonus_eq, countHits_eq, locScan_eq]
    split_ifs <;> (congr 1) <;> (congr 1) <;> omega
  · rcases pd with _ | pd0
    · dsimp only
      simp only [scanBonus_eq, countHits_eq, locScan_eq]
      split_ifs <;> (congr 1) <;> (congr 1) <;> omega
    · dsimp only
      simp only [scanBonus_eq, countHits_eq, locScan_eq]
      split_ifs <;> first
        | ((congr 1) <;> (congr 1) <;> omega)
        | tauto

/-! ## Claim theorems -/

/-- C1 (amended): for every JD text, profile and job,
`keywordFallbackScreen` computes exactly the claimed substring-matching
formula — base 40, +5 per role keyword present, +3 per profile skill found
capped at +20, +5 if any target location appears (at most once), +5 if an
experience-range token appears, −15 per negative keyword present, +100 when
the lowercased `postedDate` contains one of the five freshness substrings
(rather than only when the job is at most one day old), clamped to
[0, 100] — and `worthAnalyzing` is exactly `score ≥ 50`. -/
theorem keywordFallbackScreen_eq_spec (jd : String) (p : Profile)
    (j : Option ScreenJob) : keywordFallbackScreen jd p j = specScreen jd p j := by
  unfold keywordFallbackScreen specScreen
  rw [kfsScore_eq_spec]

/-- C1 counterexample: a job whose `postedDate` is `"11 days ago"` — eleven
days old, not at most one day — still receives the +100 freshness boost,
because the token `"1 day"` is a substring of `"11 days ago"`; with no other
signals the claim's formula would leave the score at 40 (and
`worthAnalyzing = false`, as the `job = none` evaluation shows), but the
code returns 100 and `worthAnalyzing = true`. -/
theorem keywordFallbackScreen_stale_fresh_boost :
    jsIncludes (strLower "11 days ago") "1 day" = true ∧
    keywordFallbackScreen "" emptyProfile (some ⟨some "11 days ago"⟩) =
      ⟨true, 100, "keyword-fallback (Gemini unavailable)"⟩ ∧
    keywordFallbackScreen "" emptyProfile none =
      ⟨false, 40, "keyword-fallback (Gemini unavailable)"⟩ := by
  refine ⟨by decide, by decide, by decide⟩

theorem applyAlerts_calls (cfg : BudgetCfg) (log : BudgetLog) (mk : ModelKey) :
    (applyAlerts cfg log).calls mk = log.calls mk := by
  unfold applyAlerts
  dsimp only
  split_ifs <;> cases mk <;> rfl

theorem applyAlerts_totalCallsToday (cfg : BudgetCfg) (log : BudgetLog) :
    (applyAlerts cfg log).totalCallsToday = log.totalCallsToday := by
  unfold applyAlerts
  dsimp only
  split_ifs <;> rfl

/-- C10: when the stored date differs from the current date,
`_ensureTodayLog` resets only the daily fields (`date`, `callsByModel`,
`estimatedCostToday`, `totalCallsToday`) and leaves `estimatedCostMonth`,
`paused`, `pausedUntil`, `monthlyHistory` and both alert flags unchanged;
when the date matches, the log is untouched. -/
theorem ensureTodayLog_frame (today : Ymd) (log : BudgetLog) :
    ((ensureTodayLog today log).estimatedCostMonth = log.estimatedCostMonth ∧
     (ensureTodayLog today log).paused = log.paused ∧
     (ensureTodayLog today log).pausedUntil = log.pausedUntil ∧
     (ensureTodayLog today log).monthlyHistory = log.monthlyHistory ∧
     (ensureTodayLog today log).warnAlerted = log.warnAlerted ∧
     (ensureTodayLog today log).pauseAlerted = log.pauseAlerted) ∧
    (log.date ≠ today →
      (ensureTodayLog today log).date = today ∧
      (ensureTodayLog today log).callsFREE = 0 ∧
      (ensureTodayLog today log).callsCHEAP = 0 ∧
      (ensureTodayLog today log).callsBALANCED = 0 ∧
      (ensureTodayLog today log).estimatedCostToday = 0 ∧
      (ensureTodayLog today log).totalCallsToday = 0) ∧
    (log.date = today → ensureTodayLog today log = log) := by
  unfold ensureTodayLog
  split_ifs with h <;> simp_all

/-- C10 witness: the frame theorem applied to a log dated the previous day
with nonzero daily counters and a nonzero monthly total. -/
theorem ensureTodayLog_frame_witness :
    (ensureTodayLog day0 logStale).estimatedCostMonth = logStale.estimatedCostMonth ∧
    (ensureTodayLog day0 logStale).date = day0 ∧
    (ensureTodayLog day0 logStale).totalCallsToday = 0 := by
  refine ⟨(ensureTodayLog_frame day0 logStale).1.1,
          ((ensureTodayLog_frame day0 logStale).2.1 (by decide)).1,
          ((ensureTodayLog_frame day0 logStale).2.1 (by decide)).2.2.2.2.2⟩

/-- C2: `checkBudget(modelKey)` allows a call iff (on the day-rolled log)
the agent is not paused, the monthly cost is below the hard stop, the
daily per-model count is below its limit, and the daily total is below the
TOTAL limit; and when a not-yet-paused log has monthly cost at or above the
hard stop, the call is refused and the saved log is paused until the first
day of the next month. -/
theorem checkBudget_spec (cfg : BudgetCfg) (today : Ymd) (fc : Bool)
    (log0 : BudgetLog) (mk : ModelKey) :
    ((checkBudget cfg today fc log0 mk).allowed = true ↔
      ((ensureTodayLog today log0).paused = false ∧
       (ensureTodayLog today log0).estimatedCostMonth < cfg.monthlyHardStopUSD ∧
       (ensureTodayLog today log0).calls mk < registryLimits.forKey mk ∧
       (ensureTodayLog today log0).totalCallsToday < registryLimits.TOTAL)) ∧
    ((ensureTodayLog today log0).paused = false →
      cfg.monthlyHardStopUSD ≤ (ensureTodayLog today log0).estimatedCostMonth →
      (checkBudget cfg today fc log0 mk).allowed = false ∧
      (checkBudget cfg today fc log0 mk).log.paused = true ∧
      (checkBudget cfg today fc log0 mk).log.pausedUntil =
        some (firstOfNextMonth today)) := by
  unfold checkBudget
  dsimp only
  rw [applyAlerts_calls, applyAlerts_totalCallsToday]
  by_cases hp : (ensureTodayLog today log0).paused = true
  · rw [if_pos hp]
    refine ⟨iff_of_false (by simp) (fun hc => by rw [hp] at hc; exact absurd hc.1 (by simp)),
            fun h2 _ => absurd hp (by simp [h2])⟩
  · rw [if_neg hp]
    have hp' : (ensureTodayLog today log0).paused = false := by simpa using hp
    by_cases hh : cfg.monthlyHardStopUSD ≤ (ensureTodayLog today log0).estimatedCostMonth
    · rw [if_pos hh]
      exact ⟨iff_of_false (by simp) (fun hc => absurd hc.2.1 (not_lt.mpr hh)),
             fun _ _ => ⟨rfl, rfl, rfl⟩⟩
    · rw [if_neg hh]
      refine ⟨?_, fun _ h2 => absurd h2 hh⟩
      split_ifs <;> first
        | exact iff_of_true rfl ⟨hp', not_le.mp hh, by omega, by omega⟩
        | exact iff_of_false (by simp) (by rintro ⟨-, -, hcalls, htot⟩; omega)

/-- C2 witness: a log at the hard stop gets paused until the next first of
month, and a fresh log is allowed. -/
theorem checkBudget_spec_witness :
    ((checkBudget cfg0 day0 false logAtHardStop .FREE).allowed = false ∧
     (checkBudget cfg0 day0 false logAtHardStop .FREE).log.paused = true ∧
     (checkBudget cfg0 day0 false logAtHardStop .FREE).log.pausedUntil =
       some (firstOfNextMonth day0)) ∧
    (checkBudget cfg0 day0 false logFresh .CHEAP).allowed = true := by
  refine ⟨(checkBudget_spec cfg0 day0 false logAtHardStop .FREE).2 (by decide) (by decide),
          ((checkBudget_spec cfg0 day0 false logFresh .CHEAP).1).mpr
            ⟨by decide, by decide, by decide, by decide⟩⟩

/-- C3: `callGemini` consults the rate limiter first — if it refuses, the
call returns null with no model request issued, no call recorded, the
budget log untouched and `checkBudget` never consulted — and otherwise
consults `checkBudget` for exactly the routed cost tier; if that refuses,
the call returns null with no model request issued and no call or cost
recorded (the final budget log is exactly what `checkBudget` saved). -/
theorem callGemini_gate (env : GeminiEnv) (cfg : BudgetCfg) (today : Ymd)
    (now : Nat) (task : String) (wantJson : Bool) (rl0 : RlState)
    (log0 : BudgetLog) (fc : Bool) :
    ((waitForSlot today now rl0).1 = false →
      callGemini env cfg today now task wantJson rl0 log0 fc =
        ⟨none, (waitForSlot today now rl0).2, log0, fc, 0, 0, none⟩) ∧
    ((waitForSlot today now rl0).1 = true →
      (checkBudget cfg today fc log0 (getModel fc task).costTier).allowed = false →
      callGemini env cfg today now task wantJson rl0 log0 fc =
        ⟨none, (waitForSlot today now rl0).2,
         (checkBudget cfg today fc log0 (getModel fc task).costTier).log,
         (checkBudget cfg today fc log0 (getModel fc task).costTier).forceCheap,
         0, 0, some (getModel fc task).costTier⟩) := by
  constructor
  · intro h
    simp [callGemini, h]
  · intro h1 h2
    simp [callGemini, h1, h2]

/-- C3 witness: with the daily rate cap exhausted the call is refused before
any budget interaction, and with a paused budget log the call is refused
after the budget check, in both cases with zero requests and records. -/
theorem callGemini_gate_witness :
    callGemini envAllFatal cfg0 day0 0 "jd_screening" false rlExhausted logFresh false =
      ⟨none, (waitForSlot day0 0 rlExhausted).2, logFresh, false, 0, 0, none⟩ ∧
    callGemini envAllFatal cfg0 day0 0 "jd_screening" false rlFresh logPausedW false =
      ⟨none, (waitForSlot day0 0 rlFresh).2,
       (checkBudget cfg0 day0 false logPausedW (getModel false "jd_screening").costTier).log,
       (checkBudget cfg0 day0 false logPausedW (getModel false "jd_screening").costTier).forceCheap,
       0, 0, some (getModel false "jd_screening").costTier⟩ := by
  refine ⟨(callGemini_gate envAllFatal cfg0 day0 0 "jd_screening" false rlExhausted
            logFresh false).1 (by decide),
          (callGemini_gate envAllFatal cfg0 day0 0 "jd_screening" false rlFresh
            logPausedW false).2 (by decide) (by decide)⟩

theorem orchInv_step (s : OrchSys) (e : OrchEvent) (h : orchInv s) :
    orchInv (orchStep s e) := by
  obtain ⟨h1, h2⟩ := h
  cases e with
  | enterCycle =>
    by_cases hg : (s.flags.isPaused || s.flags.isRunning || s.flags.emergencyStop) = true
    · have hstep : orchStep s .enterCycle = s := by simp [orchStep, hg]
      rw [hstep]
      exact ⟨h1, h2⟩
    · have hg' := hg
      simp only [Bool.or_eq_true, not_or, Bool.not_eq_true] at hg'
      obtain ⟨⟨hgp, hgr⟩, hge⟩ := hg'
      have h0 : s.activeCycles = 0 := by
        by_contra hne
        have hone : s.activeCycles = 1 := by omega
        rcases h2 hone with hr | he
        · rw [hgr] at hr; exact Bool.noConfusion hr
        · rw [hge] at he; exact Bool.noConfusion he
      have hstep : orchStep s .enterCycle =
          ⟨⟨s.flags.isPaused, true, s.flags.emergencyStop⟩, s.activeCycles + 1⟩ := by
        simp [orchStep, hgp, hgr, hge]
      rw [hstep]
      refine ⟨?_, fun _ => Or.inl rfl⟩
      show s.activeCycles + 1 ≤ 1
      omega
  | exitCycle =>
    by_cases hz : s.activeCycles = 0
    · have hstep : orchStep s .exitCycle = s := by simp [orchStep, hz]
      rw [hstep]
      exact ⟨h1, h2⟩
    · have hstep : orchStep s .exitCycle =
          ⟨⟨s.flags.isPaused, false, s.flags.emergencyStop⟩, s.activeCycles - 1⟩ := by
        simp [orchStep, hz]
      rw [hstep]
      refine ⟨?_, ?_⟩
      · show s.activeCycles - 1 ≤ 1
        omega
      · intro hx
        have hx' : s.activeCycles - 1 = 1 := hx
        exact absurd hx' (by omega)
  | setPausedEv b =>
    have hstep : orchStep s (.setPausedEv b) =
        ⟨⟨b, s.flags.isRunning, s.flags.emergencyStop⟩, s.activeCycles⟩ := rfl
    rw [hstep]
    exact ⟨h1, fun hx => h2 hx⟩
  | emergencyEv =>
    have hstep : orchStep s .emergencyEv = ⟨⟨true, false, true⟩, s.activeCycles⟩ := rfl
    rw [hstep]
    exact ⟨h1, fun _ => Or.inr rfl⟩

theorem orchInv_run (evs : List OrchEvent) : orchInv (orchRun evs) := by
  have H : ∀ s, orchInv s → orchInv (evs.foldl orchStep s) := by
    induction evs with
    | nil => exact fun s h => h
    | cons e rest ih => exact fun s h => ih _ (orchInv_step s e h)
  exact H orchInit ⟨by simp [orchInit], fun hx => by simp [orchInit] at hx⟩

/-- C4: in every event trace from process start, at most one cycle body is
executing (two bodies never overlap); an `enterCycle` with `isPaused`,
`isRunning` or `emergencyStop` set leaves the state entirely unchanged; an
admitted entry sets `isRunning` and starts the body; and every exit path of
a running body clears `isRunning`. -/
theorem cycle_no_reentry (evs : List OrchEvent) :
    (orchRun evs).activeCycles ≤ 1 ∧
    (∀ s : OrchSys,
      (s.flags.isPaused || s.flags.isRunning || s.flags.emergencyStop) = true →
      orchStep s .enterCycle = s) ∧
    (∀ s : OrchSys,
      (s.flags.isPaused || s.flags.isRunning || s.flags.emergencyStop) = false →
      (orchStep s .enterCycle).flags.isRunning = true ∧
      (orchStep s .enterCycle).activeCycles = s.activeCycles + 1) ∧
    (∀ s : OrchSys, s.activeCycles ≠ 0 →
      (orchStep s .exitCycle).flags.isRunning = false ∧
      (orchStep s .exitCycle).activeCycles = s.activeCycles - 1) := by
  refine ⟨(orchInv_run evs).1, ?_, ?_, ?_⟩
  · intro s h
    simp [orchStep, h]
  · intro s h
    constructor <;> simp [orchStep, h]
  · intro s h
    constructor <;> simp [orchStep, h]

/-- C4 witness: the no-overlap bound on a concrete trace, a blocked entry on
a paused state, an admitted entry on a clean state, and an exit clearing the
flag. -/
theorem cycle_no_reentry_witness :
    (orchRun [.enterCycle, .exitCycle, .enterCycle]).activeCycles ≤ 1 ∧
    orchStep ⟨⟨true, false, false⟩, 0⟩ .enterCycle = ⟨⟨true, false, false⟩, 0⟩ ∧
    (orchStep ⟨⟨false, false, false⟩, 0⟩ .enterCycle).flags.isRunning = true ∧
    (orchStep ⟨⟨false, true, false⟩, 1⟩ .exitCycle).flags.isRunning = false := by
  refine ⟨(cycle_no_reentry [.enterCycle, .exitCycle, .enterCycle]).1,
          (cycle_no_reentry []).2.1 ⟨⟨true, false, false⟩, 0⟩ (by decide),
          ((cycle_no_reentry []).2.2.1 ⟨⟨false, false, false⟩, 0⟩ (by decide)).1,
          ((cycle_no_reentry []).2.2.2 ⟨⟨false, true, false⟩, 1⟩ (by decide)).1⟩

theorem logApplication_applied (now : String) (st : MemState) (d : JobData) :
    (logApplication now st d).applied =
      if 2000 < st.applied.length + 1 then
        (st.applied ++ [AppliedEntry.mk d now]).drop (st.applied.length + 1 - 2000)
      else st.applied ++ [AppliedEntry.mk d now] := by
  unfold logApplication
  dsimp only
  simp only [List.length_append, List.length_cons, List.length_nil, Nat.zero_add]
  split_ifs <;> dsimp only

theorem logApplication_archive (now : String) (st : MemState) (d : JobData) :
    (logApplication now st d).archive =
      if 2000 < st.applied.length + 1 then
        st.archive ++ (st.applied ++ [AppliedEntry.mk d now]).take (st.applied.length + 1 - 2000)
      else st.archive := by
  unfold logApplication
  dsimp only
  simp only [List.length_append, List.length_cons, List.length_nil, Nat.zero_add]
  split_ifs <;> dsimp only

/-- C5: after every `logApplication` the applied-jobs list holds at most
2000 entries and ends with the newly stamped record; when appending would
exceed the cap, the kept list is exactly the most recent 2000 records in
their original order and the removed prefix (the oldest entries) is
appended to the archive file. -/
theorem logApplication_cap (now : String) (st : MemState) (d : JobData) :
    (logApplication now st d).applied.length ≤ 2000 ∧
    (logApplication now st d).applied.getLast? = some (AppliedEntry.mk d now) ∧
    (st.applied.length + 1 ≤ 2000 →
      (logApplication now st d).applied = st.applied ++ [AppliedEntry.mk d now] ∧
      (logApplication now st d).archive = st.archive) ∧
    (2000 < st.applied.length + 1 →
      (logApplication now st d).applied =
        (st.applied ++ [AppliedEntry.mk d now]).drop (st.applied.length + 1 - 2000) ∧
      (logApplication now st d).applied.length = 2000 ∧
      (logApplication now st d).archive =
        st.archive ++ (st.applied ++ [AppliedEntry.mk d now]).take (st.applied.length + 1 - 2000)) := by
  rw [logApplication_applied, logApplication_archive]
  by_cases h : 2000 < st.applied.length + 1
  · have hk : st.applied.length + 1 - 2000 ≤ st.applied.length := by omega
    simp only [if_pos h]
    refine ⟨?_, ?_, fun hc => absurd h (by omega), fun _ => ⟨trivial, ?_, trivial⟩⟩
    · rw [List.length_drop]
      simp only [List.length_append, List.length_cons, List.length_nil, Nat.zero_add]
      omega
    · rw [List.drop_append_of_le_length hk, List.getLast?_concat]
    · rw [List.length_drop]
      simp only [List.length_append, List.length_cons, List.length_nil, Nat.zero_add]
      omega
  · simp only [if_neg h]
    refine ⟨?_, List.getLast?_concat _, fun _ => ⟨trivial, trivial⟩, fun hc => absurd hc h⟩
    simp only [List.length_append, List.length_cons, List.length_nil, Nat.zero_add]
    omega

/-- C5 witness: logging into a 2000-entry store stays at the 2000 cap, with
the new record last. -/
theorem logApplication_cap_witness :
    2000 < stFull.applied.length + 1 ∧
    (logApplication "t1" stFull jd1).applied.length = 2000 ∧
    (logApplication "t1" stFull jd1).applied.getLast? = some (AppliedEntry.mk jd1 "t1") := by
  have hlen : stFull.applied.length = 2000 := List.length_replicate 2000 _
  refine ⟨by omega, ?_, (logApplication_cap "t1" stFull jd1).2.1⟩
  exact ((logApplication_cap "t1" stFull jd1).2.2.2 (by omega)).2.1

/-- C6 (code-bug evaluation at the failing input): when one role search
returns the same easy-apply job twice (jobId `"1"`, keyword score 45), the
cycle submits and logs two applications for it; the trace shows the second
submission happening although the job had already been applied to earlier
in the same cycle (`preInCycle = true`, and `hasApplied` already `true`),
and the applied-jobs file ends up with a duplicated record. -/
theorem cycle_duplicate_apply_bug :
    dupBugOut.cycleApplied = 2 ∧
    dupBugOut.events.map (fun e => (e.jobId, e.preInCycle, e.preHasApplied, e.succeeded)) =
      [("1", false, false, true), ("1", true, true, true)] ∧
    dupBugOut.mem.applied.map (fun e => e.data.jobId) = ["1", "1"] := by
  refine ⟨by decide, by decide, by decide⟩

/-- C7 counterexample: `addToExternalQueue` does enforce a structural
invariant — jobId uniqueness. Inserting a different record that carries an
already-queued `jobId` leaves the queue unchanged, so it is not true that
no memory-layer operation enforces uniqueness on the stored entries. -/
theorem externalQueue_uniqueness_cex :
    qd2.jobId = qd1.jobId ∧ qd2 ≠ qd1 ∧
    addToExternalQueue "t2" [⟨qd1, "t1"⟩] qd2 = [⟨qd1, "t1"⟩] := by
  refine ⟨by decide, by decide, by decide⟩

/-- C7 (amended): the persisted entities carry no invariant enforcement
beyond the array length caps and two ad hoc duplicate-insert guards:
`addToExternalQueue` refuses a record whose jobId is already queued (and so
preserves jobId uniqueness), `addToBlocklist` refuses a company already
present case-insensitively (preserving case-insensitive uniqueness), and
`logApplication` never deduplicates — it always appends, subject only to
the 2000 cap. -/
theorem memory_guards_spec (now : String) (q : List QueueEntry) (d : QueueData)
    (p : Profile) (c : String) (dd : JobData) :
    (q.any (fun e => e.data.jobId == d.jobId) = true → addToExternalQueue now q d = q) ∧
    ((q.map (fun e => e.data.jobId)).Nodup →
      ((addToExternalQueue now q d).map (fun e => e.data.jobId)).Nodup) ∧
    (p.blockedCompanies.any (fun b => strLower b == strLower c) = true →
      addToBlocklist p c = p) ∧
    ((p.blockedCompanies.map strLower).Nodup →
      ((addToBlocklist p c).blockedCompanies.map strLower).Nodup) ∧
    (∀ st : MemState, (logApplication now st dd).applied.length =
      min (st.applied.length + 1) 2000) := by
  refine ⟨fun h => by simp [addToExternalQueue, h], ?_,
          fun h => by simp [addToBlocklist, h], ?_, ?_⟩
  · intro hnd
    unfold addToExternalQueue
    split_ifs with h
    · exact hnd
    · rw [List.map_append]
      simp only [List.map_cons, List.map_nil]
      refine List.Nodup.append hnd (List.nodup_singleton _) ?_
      intro x hx hx2
      rcases List.mem_map.mp hx with ⟨e, he, hex⟩
      rcases List.mem_singleton.mp hx2 with rfl
      apply absurd h
      simp only [not_not]
      rw [List.any_eq_true]
      exact ⟨e, he, by rw [beq_iff_eq, hex]⟩
  · intro hnd
    unfold addToBlocklist
    split_ifs with h
    · exact hnd
    · rw [List.map_append]
      simp only [List.map_cons, List.map_nil]
      refine List.Nodup.append hnd (List.nodup_singleton _) ?_
      intro x hx hx2
      rcases List.mem_map.mp hx with ⟨b, hb, hbx⟩
      rcases List.mem_singleton.mp hx2 with rfl
      apply absurd h
      simp only [not_not]
      rw [List.any_eq_true]
      exact ⟨b, hb, by rw [beq_iff_eq, hbx]⟩
  · intro st
    rw [logApplication_applied]
    split_ifs with h
    · rw [List.length_drop]
      simp only [List.length_append, List.length_cons, List.length_nil, Nat.zero_add]
      omega
    · simp only [List.length_append, List.length_cons, List.length_nil, Nat.zero_add]
      omega

/-- C7 witness: a duplicate-jobId insert is a no-op and keeps the queue
nodup, a case-insensitive duplicate company is refused, and a log into a
cached empty store grows to length 1. -/
theorem memory_guards_spec_witness :
    addToExternalQueue "t2" [⟨qd1, "t1"⟩] qd2 = [⟨qd1, "t1"⟩] ∧
    ((addToExternalQueue "t2" [⟨qd1, "t1"⟩] qd2).map (fun e => e.data.jobId)).Nodup ∧
    addToBlocklist ⟨[], [], ["Acme"]⟩ "ACME" = ⟨[], [], ["Acme"]⟩ ∧
    (logApplication "t" stCached jd0).applied.length =
      min (stCached.applied.length + 1) 2000 := by
  refine ⟨(memory_guards_spec "t2" [⟨qd1, "t1"⟩] qd2 emptyProfile "x" jd0).1 (by decide),
          (memory_guards_spec "t2" [⟨qd1, "t1"⟩] qd2 emptyProfile "x" jd0).2.1 (by decide),
          (memory_guards_spec "t2" [⟨qd1, "t1"⟩] qd2 ⟨[], [], ["Acme"]⟩ "ACME" jd0).2.2.1
            (by decide),
          (memory_guards_spec "t" [] qd1 emptyProfile "x" jd0).2.2.2.2 stCached⟩

/-- C8: a read after a write of the same file returns exactly the written
value, other files are unaffected, `readJSON` returns null (never throws)
on a missing or corrupt file, and every accessor substitutes its documented
default for that null. -/
theorem readJSON_writeJSON_spec (fs : FileSys) (name other : String) (v : Json)
    (now today : String) :
    readJSON (writeJSON fs name v) name = some v ∧
    (other ≠ name → readJSON (writeJSON fs name v) other = readJSON fs other) ∧
    (fs name = none → readJSON fs name = none) ∧
    (fs name = some .corrupt → readJSON fs name = none) ∧
    (readJSON fs "applied-jobs.json" = none → getAppliedJobsJ fs = .arr []) ∧
    (readJSON fs "recruiter-messages.json" = none →
      getRecruiterMessagesJ fs = .arr []) ∧
    (readJSON fs "external-queue.json" = none → getExternalQueueJ fs = .arr []) ∧
    (readJSON fs "hourly-stats.json" = none →
      getHourlyStatsJ fs now = hourlyStatsDefault now) ∧
    (readJSON fs "budget-log.json" = none →
      getBudgetLogJ fs today = budgetLogDefault today) := by
  refine ⟨by simp [readJSON, writeJSON], fun h => by simp [readJSON, writeJSON, h],
          fun h => by simp [readJSON, h], fun h => by simp [readJSON, h],
          fun h => by simp [getAppliedJobsJ, jsOr, h],
          fun h => by simp [getRecruiterMessagesJ, jsOr, h],
          fun h => by simp [getExternalQueueJ, jsOr, h],
          fun h => by simp [getHourlyStatsJ, jsOr, h],
          fun h => by simp [getBudgetLogJ, jsOr, h]⟩

/-- C8 witness: the round trip and the default substitutions evaluated on
an empty memory directory. -/
theorem readJSON_writeJSON_spec_witness :
    readJSON (writeJSON fsEmpty "applied-jobs.json" (.arr [])) "applied-jobs.json" =
      some (.arr []) ∧
    readJSON (writeJSON fsEmpty "a.json" .null) "b.json" = readJSON fsEmpty "b.json" ∧
    getAppliedJobsJ fsEmpty = .arr [] ∧
    getBudgetLogJ fsEmpty "2025-01-15" = budgetLogDefault "2025-01-15" := by
  refine ⟨(readJSON_writeJSON_spec fsEmpty "applied-jobs.json" "x" (.arr []) "n" "t").1,
          (readJSON_writeJSON_spec fsEmpty "a.json" "b.json" .null "n" "t").2.1
            (by decide),
          (readJSON_writeJSON_spec fsEmpty "x" "y" .null "n" "2025-01-15").2.2.2.2.1 rfl,
          (readJSON_writeJSON_spec fsEmpty "x" "y" .null "n" "2025-01-15").2.2.2.2.2.2.2.2
            rfl⟩

theorem mem_setAdd (c : List String) (x id : String) :
    x ∈ setAdd c id ↔ x ∈ c ∨ x = id := by
  unfold setAdd
  split_ifs with h
  · exact ⟨Or.inl, fun hx => hx.elim (fun hc => hc) (fun he => he ▸ h)⟩
  · simp [List.mem_append]

theorem mem_foldl_setAdd (l : List String) (c : List String) (x : String) :
    x ∈ l.foldl setAdd c ↔ x ∈ c ∨ x ∈ l := by
  induction l generalizing c with
  | nil => simp
  | cons a t ih =>
    rw [List.foldl_cons, ih, mem_setAdd]
    simp only [List.mem_cons]
    tauto

theorem mem_setOfList (l : List String) (x : String) :
    x ∈ setOfList l ↔ x ∈ l := by
  unfold setOfList
  rw [mem_foldl_setAdd]
  simp

theorem logApplication_cache (now : String) (st : MemState) (d : JobData)
    (c : List String) (h : st.cache = some c) :
    (logApplication now st d).cache = some (setAdd c d.jobId) := by
  unfold logApplication ensureCache
  dsimp only
  split_ifs <;> simp [h]

theorem logApplication_hasApplied (now : String) (st : MemState) (d : JobData) :
    hasAppliedB (logApplication now st d) d.jobId = true := by
  unfold hasAppliedB ensureCache logApplication
  dsimp only
  split_ifs <;>
    · rw [List.elem_iff, mem_setAdd]
      exact Or.inr rfl

theorem logMany_cache (calls : List (JobData × String)) (st : MemState)
    (c : List String) (h : st.cache = some c) :
    (logMany st calls).cache =
      some ((calls.map (fun x => x.1.jobId)).foldl setAdd c) := by
  induction calls generalizing st c with
  | nil => simpa [logMany]
  | cons a t ih =>
    rcases a with ⟨da, ta⟩
    rw [logMany, List.map_cons, List.foldl_cons]
    exact ih (logApplication ta st da) (setAdd c da.jobId)
      (logApplication_cache ta st da c h)

/-- C9: immediately after `logApplication(jobData)` the cache answers
`hasApplied(jobData.jobId) = true`; and from any state whose cache has been
initialized from the applied-jobs file, after any sequence of further
`logApplication` calls, `hasApplied(id)` is true exactly when `id` is the
jobId of a record that was in the file at initialization or was logged
since. -/
theorem hasApplied_cache_spec (st : MemState) (d : JobData) (t : String)
    (st0 : MemState) (calls : List (JobData × String)) (id : String)
    (h : st0.cache = some (setOfList (st0.applied.map (fun e => e.data.jobId)))) :
    hasAppliedB (logApplication t st d) d.jobId = true ∧
    (hasAppliedB (logMany st0 calls) id = true ↔
      id ∈ st0.applied.map (fun e => e.data.jobId) ∨
      id ∈ calls.map (fun x => x.1.jobId)) := by
  refine ⟨logApplication_hasApplied t st d, ?_⟩
  have hc := logMany_cache calls st0 _ h
  unfold hasAppliedB ensureCache
  rw [hc]
  rw [List.elem_iff, mem_foldl_setAdd, mem_setOfList]

/-- C9 witness: starting from an initialized empty cache, a logged job is
reported applied, and an id never logged is not. -/
theorem hasApplied_cache_spec_witness :
    hasAppliedB (logApplication "t" stCached jd0) jd0.jobId = true ∧
    (hasAppliedB (logMany stCached [(jd0, "t")]) jd0.jobId = true ↔
      jd0.jobId ∈ stCached.applied.map (fun e => e.data.jobId) ∨
      jd0.jobId ∈ [(jd0, "t")].map (fun x => x.1.jobId)) := by
  refine ⟨(hasApplied_cache_spec stCached jd0 "t" stCached [(jd0, "t")] jd0.jobId
            (by rfl)).1,
          (hasApplied_cache_spec stCached jd0 "t" stCached [(jd0, "t")] jd0.jobId
            (by rfl)).2⟩

end NB
